import Mathlib

/-!
Verification of the devcenter platform integration of `azure-dev`
(`cli/azd/pkg/devcenter`): layered configuration merging (`MergeConfigs`),
the IoC configuration factory of `Platform.ConfigureContainer`, the
platform-enablement check `Platform.IsEnabled`, the capability registry,
and the parameter resolver `Prompter.PromptParameters`.

Pure Go functions are embedded as Lean functions; impure collaborators
(process environment, user-config loading, the local environment store,
the interactive console) are passed explicitly as values or functions.
-/

namespace DevCenter

/-- A dynamically typed configuration value, mirroring the values stored in
azd's nested `config.Config` tree (string | bool | int | nested map). -/
inductive Value where
  | str : String → Value
  | bool : Bool → Value
  | int : Int → Value
  | tree : List (String × Value) → Value

/-- One node of the config tree: an association list from key to value.
Mirrors azd's `config.Config` map, addressed by dot-separated paths. -/
def ConfigTree := List (String × Value)

/-- Key lookup in one tree node. -/
def lookupKey : List (String × Value) → String → Option Value
  | [], _ => none
  | (k, v) :: rest, key => if k = key then some v else lookupKey rest key

/-- Key insert/overwrite in one tree node. -/
def insertKey : List (String × Value) → String → Value → List (String × Value)
  | [], key, v => [(key, v)]
  | (k, w) :: rest, key, v =>
    if k = key then (k, v) :: rest else (k, w) :: insertKey rest key v

/-- `config.Get` on a dot-path already split into components: walks nested
tree nodes; a missing key or a non-tree intermediate yields "not found". -/
def getPath (t : List (String × Value)) : List String → Option Value
  | [] => none
  | [k] => lookupKey t k
  | k :: k2 :: rest =>
    match lookupKey t k with
    | some (.tree sub) => getPath sub (k2 :: rest)
    | _ => none

/-- `config.Set` on a split dot-path: creates (or overwrites) intermediate
tree nodes as needed. -/
def setPath (t : List (String × Value)) : List String → Value → List (String × Value)
  | [], _ => t
  | [k], v => insertKey t k v
  | k :: k2 :: rest, v =>
    let sub :=
      match lookupKey t k with
      | some (.tree s) => s
      | _ => []
    insertKey t k (.tree (setPath sub (k2 :: rest) v))

/-- The devcenter `Config` struct: the typed Platform Config projection
(`cli/azd/pkg/devcenter`), one string field per configurable item. -/
structure Config where
  name : String := ""
  project : String := ""
  catalog : String := ""
  environmentType : String := ""
  environmentDefinition : String := ""
  user : String := ""
deriving DecidableEq, Repr

/-- Names of the Platform Config fields, used to state field-wise merge
properties uniformly. -/
inductive CField where
  | name | project | catalog | environmentType | environmentDefinition | user
deriving DecidableEq, Repr

/-- Field projection of a `Config` by field name. -/
def Config.get (c : Config) : CField → String
  | .name => c.name
  | .project => c.project
  | .catalog => c.catalog
  | .environmentType => c.environmentType
  | .environmentDefinition => c.environmentDefinition
  | .user => c.user

/-- Modelled from the spec (the body of `MergeConfigs` in
`cli/azd/pkg/devcenter/config.go` is not part of the sources here; only its
call site in `platform.go` is): fill each still-empty field of `acc` from
`c`, leaving already-populated fields untouched. -/
def Config.fillFrom (acc c : Config) : Config :=
  { name := if acc.name = "" then c.name else acc.name
    project := if acc.project = "" then c.project else acc.project
    catalog := if acc.catalog = "" then c.catalog else acc.catalog
    environmentType := if acc.environmentType = "" then c.environmentType else acc.environmentType
    environmentDefinition :=
      if acc.environmentDefinition = "" then c.environmentDefinition else acc.environmentDefinition
    user := if acc.user = "" then c.user else acc.user }

/-- Modelled from the spec: `MergeConfigs(configs ...*Config)` merges an
ordered sequence of optional Platform Config fragments, highest precedence
first; for each field the first fragment with a non-empty value wins, `nil`
fragments are skipped, and a field no fragment defines stays empty. -/
def MergeConfigs (configs : List (Option Config)) : Config :=
  configs.foldl
    (fun acc oc =>
      match oc with
      | none => acc
      | some c => acc.fillFrom c)
    {}

/-- First non-empty string of a list, or `""` when all are empty: the
per-field selection rule of the layer merger. -/
def firstNonEmpty : List String → String
  | [] => ""
  | s :: rest => if s = "" then firstNonEmpty rest else s

/-- A fragment that defines exactly one field. -/
def onlyField (f : CField) (v : String) : Config :=
  { name := if f = .name then v else ""
    project := if f = .project then v else ""
    catalog := if f = .catalog then v else ""
    environmentType := if f = .environmentType then v else ""
    environmentDefinition := if f = .environmentDefinition then v else ""
    user := if f = .user then v else "" }

/-! ### Environment-variable layer (`platform.go` lines 89-97) -/

/-- Modelled from the spec (the `DevCenter*EnvName` constants are defined in
`cli/azd/pkg/devcenter/config.go`, which is not among the sources here):
the discriminator-prefixed environment variable for the dev center name. -/
def DevCenterNameEnvName : String := "AZURE_DEVCENTER_NAME"

/-- Modelled from the spec: environment variable for the project field. -/
def DevCenterProjectEnvName : String := "AZURE_DEVCENTER_PROJECT"

/-- Modelled from the spec: environment variable for the catalog field. -/
def DevCenterCatalogEnvName : String := "AZURE_DEVCENTER_CATALOG"

/-- Modelled from the spec: environment variable for the environment type. -/
def DevCenterEnvTypeEnvName : String := "AZURE_DEVCENTER_ENVIRONMENT_TYPE"

/-- Modelled from the spec: environment variable for the environment
definition. -/
def DevCenterEnvDefinitionEnvName : String := "AZURE_DEVCENTER_ENVIRONMENT_DEFINITION"

/-- Modelled from the spec: environment variable for the acting user. -/
def DevCenterEnvUser : String := "AZURE_DEVCENTER_ENVIRONMENT_USER"

/-- The process-environment fragment built by the `Config` factory in
`Platform.ConfigureContainer` (`platform.go` lines 90-97), with `os.Getenv`
passed in explicitly.  Field by field this mirrors the source, including
line 91, which reads `DevCenterCatalogEnvName` (not the name variable) into
the `Name` field. -/
def envVarConfig (getenv : String → String) : Config :=
  { name := getenv DevCenterCatalogEnvName
    project := getenv DevCenterProjectEnvName
    catalog := getenv DevCenterCatalogEnvName
    environmentType := getenv DevCenterEnvTypeEnvName
    environmentDefinition := getenv DevCenterEnvDefinitionEnvName
    user := getenv DevCenterEnvUser }

/-! ### Platform enablement (`platform.go` lines 46-71) -/

/-- The devcenter platform kind discriminator. -/
def PlatformKindDevCenter : String := "devcenter"

/-- The project configuration as far as `IsEnabled` and the `Config`
factory consult it: `projectConfig.Platform` may be absent, and when
present carries a `Type` discriminator and a raw `Config` node. -/
structure PlatformSection where
  ptype : String
  config : Value

/-- `project.ProjectConfig`, restricted to the `Platform` section used by
this package. -/
structure ProjectConfig where
  platform : Option PlatformSection

/-- ASCII simple case folding of one character, as `strings.EqualFold`
performs on ASCII input (the only alphabet of the `"devcenter"`
discriminator it is compared against). -/
def foldChar (c : Char) : Char :=
  if 'A' ≤ c ∧ c ≤ 'Z' then Char.ofNat (c.toNat + 32) else c

/-- Go's `strings.EqualFold`, restricted to ASCII case folding. -/
def equalFold (s t : String) : Bool :=
  s.data.map foldChar == t.data.map foldChar

/-- The project-level check of `IsEnabled` (`platform.go` lines 49-53):
the project config is present, has a `Platform` section, and its `Type`
equals the devcenter kind (exact comparison). -/
def projectSaysDevCenter : Option ProjectConfig → Bool
  | some pc =>
    match pc.platform with
    | some pl => pl.ptype == PlatformKindDevCenter
    | none => false
  | none => false

/-- The dot-path `"platform.type"` consulted in the user configuration. -/
def platformTypePath : List String := ["platform", "type"]

/-- `Platform.IsEnabled` (`platform.go` lines 46-71).  `projectConfig` is
the (possibly failed, hence optional) lazy project config; `userLoad` is
the result of `userConfigManager.Load()` (`none` models a load error). -/
def IsEnabled (projectConfig : Option ProjectConfig) (userLoad : Option ConfigTree) : Bool :=
  if projectSaysDevCenter projectConfig then true
  else
    match userLoad with
    | none => false
    | some cfg =>
      match getPath cfg platformTypePath with
      | none => false
      | some (.str s) => equalFold s PlatformKindDevCenter
      | some _ => false

/-! ### Layered config resolution (`platform.go` lines 74-158) -/

/-- The dot-path of the devcenter config sub-tree shared by the
environment-store and user-descriptor layers (`ConfigPath`), split into
components. -/
def ConfigPathParts : List String := ["platform", "config"]

/-- Reads one string field of a Platform Config fragment from a tree node:
a missing key is an empty value, a string is taken as-is, and any other
value type is malformed. -/
def getStringField (fields : List (String × Value)) (key : String) : Except Unit String :=
  match lookupKey fields key with
  | none => .ok ""
  | some (.str s) => .ok s
  | some _ => .error ()

/-- Modelled from the spec (`ParseConfig` lives in
`cli/azd/pkg/devcenter/config.go`, not among the sources here): the
validated projection of a raw config node into the typed Platform Config;
a non-tree node or a non-string field is malformed and yields an error. -/
def ParseConfig : Value → Except Unit Config
  | .tree fields => do
    let n ← getStringField fields "name"
    let p ← getStringField fields "project"
    let c ← getStringField fields "catalog"
    let et ← getStringField fields "environmentType"
    let ed ← getStringField fields "environmentDefinition"
    let u ← getStringField fields "user"
    .ok { name := n, project := p, catalog := c, environmentType := et,
          environmentDefinition := ed, user := u }
  | _ => .error ()

/-- `azdcontext.AzdContext` as consulted by the config factory: only
`GetDefaultEnvironmentName`, which may fail. -/
structure AzdContext where
  getDefaultEnvironmentName : Except Unit String

/-- `environment.Environment` as consulted here: its config tree. -/
structure Environment where
  config : ConfigTree

/-- The environment-store layer of the config factory (`platform.go` lines
102-123): absent azd context or store yields no fragment; a failing
default-environment lookup yields an empty fragment; a missing environment
or missing devcenter node yields no fragment; a present node is parsed,
and a parse failure aborts resolution. -/
def environmentLayer (azdCtx : Option AzdContext)
    (store : Option (String → Except Unit Environment)) :
    Except Unit (Option Config) :=
  match azdCtx, store with
  | some ctx, some st =>
    match ctx.getDefaultEnvironmentName with
    | .error _ => .ok (some {})
    | .ok envName =>
      match st envName with
      | .error _ => .ok none
      | .ok env =>
        match getPath env.config ConfigPathParts with
        | none => .ok none
        | some node => (ParseConfig node).map some
  | _, _ => .ok none

/-- The user-descriptor layer (`platform.go` lines 126-140): a failed
user-config load yields an empty fragment; a missing devcenter node yields
no fragment; a present node is parsed, and a parse failure aborts. -/
def userLayer (userLoad : Option ConfigTree) : Except Unit (Option Config) :=
  match userLoad with
  | none => .ok (some {})
  | some azdConfig =>
    match getPath azdConfig ConfigPathParts with
    | none => .ok none
    | some node => (ParseConfig node).map some

/-- The project-descriptor layer (`platform.go` lines 143-150): absent
project config or platform section yields no fragment; a present platform
config node is parsed, and — unlike the other layers — a parse failure is
swallowed (`if err == nil`), leaving the fragment absent. -/
def projectLayer : Option ProjectConfig → Option Config
  | some pc =>
    match pc.platform with
    | some pl =>
      match ParseConfig pl.config with
      | .ok v => some v
      | .error _ => none
    | none => none
  | none => none

/-- The `Config` factory registered by `Platform.ConfigureContainer`
(`platform.go` lines 76-158): builds the four layer fragments and merges
them in precedence order process-environment, environment-store,
project-descriptor, user-descriptor. -/
def resolveConfig (getenv : String → String) (azdCtx : Option AzdContext)
    (store : Option (String → Except Unit Environment))
    (userLoad : Option ConfigTree) (projConfig : Option ProjectConfig) :
    Except Unit Config := do
  let envLayer ← environmentLayer azdCtx store
  let userCfg ← userLayer userLoad
  .ok (MergeConfigs [some (envVarConfig getenv), envLayer, projectLayer projConfig, userCfg])

/-! ### Parameter resolver (`Prompter.PromptParameters`)

The prompter implementation (`cli/azd/pkg/devcenter/prompter.go`) is not
among the sources here; only its tests are.  The resolver below is
modelled from the spec (§4.4) and checked against the behaviors the tests
pin down. -/

/-- A parameter's declared type: string, bool or int. -/
inductive PType where
  | string | bool | int
deriving DecidableEq, Repr

/-- `devcentersdk.Parameter` as consumed by the resolver: unique id,
display name, declared type. -/
structure Parameter where
  id : String
  pname : String
  type : PType

/-- Whether a resolved value matches a declared parameter type. -/
def valueHasType : Value → PType → Bool
  | .str _, .string => true
  | .bool _, .bool => true
  | .int _, .int => true
  | _, _ => false

/-- Accumulates decimal digits; any non-digit character rejects. -/
def digitsValAux : List Char → Nat → Option Nat
  | [], acc => some acc
  | c :: rest, acc =>
    if c.isDigit then digitsValAux rest (acc * 10 + (c.toNat - Char.toNat '0'))
    else none

/-- Value of a non-empty all-digit string; `none` otherwise. -/
def digitsVal : List Char → Option Nat
  | [] => none
  | c :: rest => digitsValAux (c :: rest) 0

/-- Modelled from the spec: base-10 integer parsing of raw prompt input
(Go `strconv.Atoi`): optional sign followed by at least one digit. -/
def parseInt (s : String) : Option Int :=
  match s.data with
  | '-' :: rest => (digitsVal rest).map (fun n => -(n : Int))
  | '+' :: rest => (digitsVal rest).map (fun n => (n : Int))
  | ds => (digitsVal ds).map (fun n => (n : Int))

/-- The coercion failure for an int-typed parameter: carries the parameter
id and the offending raw value (spec §7, ParameterCoercionFailure). -/
structure ParameterCoercionFailure where
  paramId : String
  rawValue : String
deriving DecidableEq, Repr

/-- The user-visible message of a coercion failure, naming the offending
raw value and the parameter id. -/
def ParameterCoercionFailure.message (e : ParameterCoercionFailure) : String :=
  "failed to convert value " ++ e.rawValue ++ " of parameter " ++ e.paramId ++ " to int"

/-- The persisted dot-path `provision.parameters.<id>` of a parameter,
split into components (parameter ids contain no dots). -/
def paramPath (id : String) : List String := ["provision", "parameters", id]

/-- Persist one resolved parameter value into an environment's config
tree. -/
def setParam (env : ConfigTree) (id : String) (v : Value) : ConfigTree :=
  setPath env (paramPath id) v

/-- Outcome of one resolution pass: the resulting id→value mapping (or the
coercion failure that aborted it), the environment's config tree as left
behind, and the number of interactive prompts issued. -/
structure PromptOutcome where
  result : Except ParameterCoercionFailure (List (String × Value))
  env : ConfigTree
  prompts : Nat

/-- Prepends one resolved entry to an outcome's mapping and adds `k`
prompts. -/
def consRes (id : String) (v : Value) (out : PromptOutcome) (k : Nat) : PromptOutcome :=
  { result := out.result.map (fun m => (id, v) :: m)
    env := out.env
    prompts := out.prompts + k }

/-- Modelled from the spec (§4.4): the descriptor loop of
`Prompter.PromptParameters`.  For each descriptor in declared order: a
value already persisted at `provision.parameters.<id>` is adopted without
prompting and without re-validation; otherwise the console is consulted
(`confirms` for bool, `answers` for string/int), the raw input is coerced
to the declared type, and the coerced value is persisted before resolution
continues.  A failing int coercion aborts with a
`ParameterCoercionFailure` and persists nothing for that parameter. -/
def promptLoop (answers : String → String) (confirms : String → Bool) :
    List Parameter → ConfigTree → PromptOutcome
  | [], env => { result := .ok [], env := env, prompts := 0 }
  | p :: rest, env =>
    match getPath env (paramPath p.id) with
    | some v => consRes p.id v (promptLoop answers confirms rest env) 0
    | none =>
      match p.type with
      | .string =>
        let v := Value.str (answers p.id)
        consRes p.id v (promptLoop answers confirms rest (setParam env p.id v)) 1
      | .bool =>
        let v := Value.bool (confirms p.id)
        consRes p.id v (promptLoop answers confirms rest (setParam env p.id v)) 1
      | .int =>
        match parseInt (answers p.id) with
        | some i =>
          let v := Value.int i
          consRes p.id v (promptLoop answers confirms rest (setParam env p.id v)) 1
        | none =>
          { result := .error { paramId := p.id, rawValue := answers p.id }
            env := env
            prompts := 1 }

/-- Modelled from the spec: `Prompter.PromptParameters(ctx, env,
envDefinition)` resolves every parameter descriptor of the environment
definition against the environment's persisted config tree, prompting only
for missing ones. -/
def PromptParameters (answers : String → String) (confirms : String → Bool)
    (env : ConfigTree) (params : List Parameter) : PromptOutcome :=
  promptLoop answers confirms params env

/-! ### Capability registry

The named-singleton registry (`ioc.NestedContainer.RegisterNamedSingleton`
/ resolve) lives in `cli/azd/pkg/ioc`, not among the sources here; only
the registrations in `Platform.ConfigureContainer` (`platform.go` lines
182-195) are.  The registry below is modelled from the spec (§4.3). -/

/-- A capability key: (namespace, name). -/
def CapKey := String × String
deriving DecidableEq

/-- A registered factory, as data: the instance it would construct
(instances are identified by numeric identity), or `none` when
construction fails. -/
def Factory := Option Nat

/-- A capability registration triple (namespace, name, factory). -/
def Registrations := List (CapKey × Factory)

/-- Lookup in an association list keyed by capability key. -/
def findByKey {α : Type} : List (CapKey × α) → CapKey → Option α
  | [], _ => none
  | (k, v) :: rest, key => if k = key then some v else findByKey rest key

/-- Mutable registry state: the memoized instances, and the log of factory
invocations (one entry per invocation, keyed). -/
structure RegState where
  cache : List (CapKey × Nat)
  invocations : List CapKey

/-- Resolution errors of the registry. -/
inductive RegError where
  | notFound : String → String → RegError
  | constructionFailed : String → String → RegError
deriving DecidableEq, Repr

/-- Modelled from the spec (§4.3): `resolve(namespace, name)` returns the
memoized instance if one exists; otherwise it looks up the factory
(failing with `notFound` naming both identifiers), invokes it (logging the
invocation), memoizes a successful construction, and does not memoize a
failure. -/
def resolve (regs : Registrations) (st : RegState) (key : CapKey) :
    Except RegError (Nat × RegState) :=
  match findByKey st.cache key with
  | some inst => .ok (inst, st)
  | none =>
    match findByKey regs key with
    | none => .error (.notFound key.1 key.2)
    | some factory =>
      match factory with
      | none =>
        .error (.constructionFailed key.1 key.2)
      | some inst =>
        .ok (inst, { cache := (key, inst) :: st.cache, invocations := key :: st.invocations })

/-- Number of factory invocations logged for one key. -/
def invocationCount (st : RegState) (key : CapKey) : Nat :=
  (st.invocations.filter (fun k => k = key)).length

/-- The three named singletons `Platform.ConfigureContainer` registers
(`platform.go` lines 182-195): the provision provider, the remote
environment store, and the template source, each under the name
`"devcenter"` in its own capability namespace. -/
def devcenterRegistrations : Registrations :=
  [ (("provisioning-provider", "devcenter"), some 1)
  , (("remote-environment-store", "devcenter"), some 2)
  , (("template-source", "devcenter"), some 3) ]

/-! ### Concrete fixtures (mirroring `prompter_test.go`, `Test_Prompt_Parameters`) -/

/-- The four descriptors of the `MultipleParameters` test: two strings, a
bool and an int. -/
def testParams4 : List Parameter :=
  [ { id := "param1", pname := "Param 1", type := PType.string }
  , { id := "param2", pname := "Param 2", type := PType.string }
  , { id := "param3", pname := "Param 3", type := PType.bool }
  , { id := "param4", pname := "Param 4", type := PType.int } ]

/-- The raw console answers of the `MultipleParameters` test (the int
parameter receives the raw string `"123"`). -/
def testAnswers : String → String := fun id =>
  if id = "param1" then "value1"
  else if id = "param2" then "value2"
  else if id = "param4" then "123"
  else "value3"

/-- The confirmation answers: `true` for every bool parameter. -/
def testConfirms : String → Bool := fun _ => true

/-- Four string-typed descriptors, for the partially-persisted scenario. -/
def testParamsStr4 : List Parameter :=
  [ { id := "param1", pname := "Param 1", type := PType.string }
  , { id := "param2", pname := "Param 2", type := PType.string }
  , { id := "param3", pname := "Param 3", type := PType.string }
  , { id := "param4", pname := "Param 4", type := PType.string } ]

/-- The first two string-typed descriptors, for the fully-persisted
scenario. -/
def testParamsStr2 : List Parameter :=
  [ { id := "param1", pname := "Param 1", type := PType.string }
  , { id := "param2", pname := "Param 2", type := PType.string } ]

/-- An environment with `provision.parameters.param1` and
`provision.parameters.param2` already persisted. -/
def testEnvPersisted : ConfigTree :=
  setParam (setParam [] "param1" (Value.str "value1")) "param2" (Value.str "value2")

/-- Console answers for the still-missing parameters of the
partially-persisted scenario. -/
def testAnswersStr : String → String := fun id =>
  if id = "param3" then "value3"
  else if id = "param4" then "value4"
  else ""

/-- A single int-typed descriptor. -/
def testParamsInt : List Parameter :=
  [ { id := "param4", pname := "Param 4", type := PType.int } ]

/-- Non-numeric raw input for every prompt. -/
def testAnswersBad : String → String := fun _ => "abc"

/-! ## Supporting lemmas: the layer merger -/

theorem fillFrom_get (a c : Config) (f : CField) :
    (a.fillFrom c).get f = if a.get f = "" then c.get f else a.get f := by
  cases f <;> rfl

theorem onlyField_get (f g : CField) (v : String) :
    (onlyField f v).get g = if g = f then v else "" := by
  cases f <;> cases g <;> simp [onlyField, Config.get]

theorem foldl_fill_get (cfgs : List (Option Config)) (acc : Config) (f : CField) :
    (cfgs.foldl
      (fun acc oc =>
        match oc with
        | none => acc
        | some c => acc.fillFrom c) acc).get f
      = firstNonEmpty (acc.get f :: (cfgs.filterMap id).map (fun c => c.get f)) := by
  induction cfgs generalizing acc with
  | nil =>
    simp only [List.foldl_nil, List.filterMap_nil, List.map_nil, firstNonEmpty]
    by_cases h : acc.get f = "" <;> simp [h]
  | cons oc rest ih =>
    cases oc with
    | none =>
      simp only [List.foldl_cons, List.filterMap_cons, id]
      exact ih acc
    | some c =>
      simp only [List.foldl_cons, List.filterMap_cons, id, List.map_cons]
      rw [ih (acc.fillFrom c)]
      rw [fillFrom_get]
      by_cases h : acc.get f = "" <;> simp [h, firstNonEmpty]

theorem mergeConfigs_get (cfgs : List (Option Config)) (f : CField) :
    (MergeConfigs cfgs).get f
      = firstNonEmpty ((cfgs.filterMap id).map (fun c => c.get f)) := by
  rw [MergeConfigs, foldl_fill_get]
  have hempty : (({} : Config)).get f = "" := by cases f <;> rfl
  rw [hempty]
  simp [firstNonEmpty]

theorem firstNonEmpty_all_empty (l : List String) (h : ∀ s ∈ l, s = "") :
    firstNonEmpty l = "" := by
  induction l with
  | nil => rfl
  | cons s rest ih =>
    have hs : s = "" := h s (List.mem_cons_self s rest)
    simp only [firstNonEmpty, hs, if_pos rfl]
    exact ih (fun t ht => h t (List.mem_cons_of_mem s ht))

/-! ## Supporting lemmas: the config tree -/

theorem lookupKey_insertKey_self (t : List (String × Value)) (k : String) (v : Value) :
    lookupKey (insertKey t k v) k = some v := by
  induction t with
  | nil => simp [insertKey, lookupKey]
  | cons kv rest ih =>
    obtain ⟨k2, w⟩ := kv
    by_cases h : k2 = k
    · simp [insertKey, lookupKey, h]
    · simp [insertKey, lookupKey, h, ih]

theorem lookupKey_insertKey_ne (k k2 : String) (v : Value) (h : k ≠ k2) :
    ∀ t : List (String × Value), lookupKey (insertKey t k v) k2 = lookupKey t k2 := by
  intro t
  induction t with
  | nil => simp [insertKey, lookupKey, h]
  | cons kv rest ih =>
    obtain ⟨k3, w⟩ := kv
    by_cases h3 : k3 = k
    · subst h3
      simp [insertKey, lookupKey, h]
    · simp only [insertKey, if_neg h3, lookupKey]
      by_cases h32 : k3 = k2 <;> simp [h32, ih]

theorem getPath_setParam_self (env : ConfigTree) (x : String) (v : Value) :
    getPath (setParam env x v) (paramPath x) = some v := by
  simp [setParam, paramPath, setPath, getPath, lookupKey_insertKey_self]

theorem getPath_setParam_ne (env : ConfigTree) (x y : String) (v : Value)
    (h : x ≠ y) :
    getPath (setParam env x v) (paramPath y) = getPath env (paramPath y) := by
  cases h1 : lookupKey env "provision" with
  | none =>
    simp [setParam, paramPath, setPath, getPath, h1, lookupKey, insertKey,
      lookupKey_insertKey_self, lookupKey_insertKey_ne x y v h, h]
  | some w =>
    cases w with
    | tree s1 =>
      cases h2 : lookupKey s1 "parameters" with
      | none =>
        simp [setParam, paramPath, setPath, getPath, h1, h2, lookupKey, insertKey,
          lookupKey_insertKey_self, lookupKey_insertKey_ne x y v h, h]
      | some w2 =>
        cases w2 with
        | tree s2 =>
          simp [setParam, paramPath, setPath, getPath, h1, h2, lookupKey_insertKey_self,
            lookupKey_insertKey_ne x y v h]
        | str s =>
          simp [setParam, paramPath, setPath, getPath, h1, h2, lookupKey, insertKey,
            lookupKey_insertKey_self, lookupKey_insertKey_ne x y v h, h]
        | bool b =>
          simp [setParam, paramPath, setPath, getPath, h1, h2, lookupKey, insertKey,
            lookupKey_insertKey_self, lookupKey_insertKey_ne x y v h, h]
        | int i =>
          simp [setParam, paramPath, setPath, getPath, h1, h2, lookupKey, insertKey,
            lookupKey_insertKey_self, lookupKey_insertKey_ne x y v h, h]
    | str s =>
      simp [setParam, paramPath, setPath, getPath, h1, lookupKey, insertKey,
        lookupKey_insertKey_self, lookupKey_insertKey_ne x y v h, h]
    | bool b =>
      simp [setParam, paramPath, setPath, getPath, h1, lookupKey, insertKey,
        lookupKey_insertKey_self, lookupKey_insertKey_ne x y v h, h]
    | int i =>
      simp [setParam, paramPath, setPath, getPath, h1, lookupKey, insertKey,
        lookupKey_insertKey_self, lookupKey_insertKey_ne x y v h, h]

/-! ## C1, C7: the layer merger -/

/-- C1: for every tuple of four layer fragments (process-environment,
environment-store, project-descriptor, user-descriptor), each field of the
merged Platform Config equals the value of the first fragment, in that
precedence order, that defines a non-empty value; a field no fragment
defines stays empty; and a fragment defining only field A over a
lower-precedence fragment defining only field B merges with both A and B
set. -/
theorem merge_field_precedence :
    (∀ e1 e2 e3 e4 : Option Config, ∀ f : CField,
      (MergeConfigs [e1, e2, e3, e4]).get f
        = firstNonEmpty (([e1, e2, e3, e4].filterMap id).map (fun c => c.get f)))
    ∧
    (∀ e1 e2 e3 e4 : Option Config, ∀ f : CField,
      (∀ c ∈ [e1, e2, e3, e4].filterMap id, c.get f = "") →
      (MergeConfigs [e1, e2, e3, e4]).get f = "")
    ∧
    (∀ fA fB : CField, ∀ vA vB : String, fA ≠ fB → vA ≠ "" → vB ≠ "" →
      (MergeConfigs [some (onlyField fA vA), some (onlyField fB vB)]).get fA = vA
      ∧ (MergeConfigs [some (onlyField fA vA), some (onlyField fB vB)]).get fB = vB) := by
  refine ⟨fun e1 e2 e3 e4 f => mergeConfigs_get _ f, ?_, ?_⟩
  · intro e1 e2 e3 e4 f hall
    rw [mergeConfigs_get]
    apply firstNonEmpty_all_empty
    intro s hs
    obtain ⟨c, hc, hcs⟩ := List.mem_map.mp hs
    rw [← hcs]
    exact hall c hc
  · intro fA fB vA vB hne hvA hvB
    constructor
    · rw [mergeConfigs_get]
      simp only [List.filterMap_cons, id, List.filterMap_nil, List.map_cons, List.map_nil]
      rw [onlyField_get fA fA vA, onlyField_get fB fA vB]
      simp [firstNonEmpty, hvA, hne]
    · rw [mergeConfigs_get]
      simp only [List.filterMap_cons, id, List.filterMap_nil, List.map_cons, List.map_nil]
      rw [onlyField_get fA fB vA, onlyField_get fB fB vB]
      have : ¬ fB = fA := fun hc => hne hc.symm
      simp [firstNonEmpty, hvB, this]

/-- Witness for C1: a catalog-only fragment over a project-only fragment
merges with both fields set. -/
theorem merge_field_precedence_witness :
    (MergeConfigs [some (onlyField CField.catalog "cat1"),
        some (onlyField CField.project "proj1")]).get CField.catalog = "cat1"
    ∧ (MergeConfigs [some (onlyField CField.catalog "cat1"),
        some (onlyField CField.project "proj1")]).get CField.project = "proj1" :=
  merge_field_precedence.2.2 CField.catalog CField.project "cat1" "proj1"
    (by decide) (by decide) (by decide)

/-- C7: `MergeConfigs` is pure and deterministic — it consumes nothing but
its fragment list, so running it twice on the identical list yields equal
results, and the result depends only on the list. -/
theorem mergeConfigs_deterministic :
    (∀ cfgs : List (Option Config), MergeConfigs cfgs = MergeConfigs cfgs)
    ∧ (∀ cfgs1 cfgs2 : List (Option Config), cfgs1 = cfgs2 →
        MergeConfigs cfgs1 = MergeConfigs cfgs2) :=
  ⟨fun _ => rfl, fun _ _ h => by rw [h]⟩

/-- Witness for C7: two runs on one concrete fragment list agree. -/
theorem mergeConfigs_deterministic_witness :
    MergeConfigs [some (onlyField CField.catalog "c"), none, none, some {}]
      = MergeConfigs [some (onlyField CField.catalog "c"), none, none, some {}] :=
  mergeConfigs_deterministic.2
    [some (onlyField CField.catalog "c"), none, none, some {}]
    [some (onlyField CField.catalog "c"), none, none, some {}] rfl

/-! ## C4: the process-environment fragment -/

/-- C4 (bug evaluation): `platform.go` line 91 reads
`DevCenterCatalogEnvName` into the `Name` field, the same variable line 93
reads into `Catalog`.  With only `AZURE_DEVCENTER_CATALOG` set (and the
name variable unset), the fragment's `Name` and `Catalog` both carry the
catalog variable's value, and `Name = Catalog` holds for every process
environment — contradicting the one-variable-per-field mapping. -/
theorem envVarConfig_name_reads_catalog_var :
    ((envVarConfig
        (fun s => if s = DevCenterCatalogEnvName then "catalog-a" else "")).name
      = "catalog-a")
    ∧ ((envVarConfig
        (fun s => if s = DevCenterCatalogEnvName then "catalog-a" else "")).catalog
      = "catalog-a")
    ∧ ((fun s => if s = DevCenterCatalogEnvName then "catalog-a" else "")
        DevCenterNameEnvName = "")
    ∧ (∀ getenv : String → String, (envVarConfig getenv).name = (envVarConfig getenv).catalog) := by
  refine ⟨by decide, by decide, by decide, fun getenv => rfl⟩

/-! ## C9, C10: platform enablement -/

/-- C9: `IsEnabled` is total (always a boolean); a failed user-config
load, a missing `platform.type` key, or a non-string value there yields
`false`; and a project config whose platform type is the devcenter kind
yields `true` independently of the user configuration. -/
theorem isEnabled_total_and_false_on_failures :
    (∀ (proj : Option ProjectConfig) (u : Option ConfigTree),
      IsEnabled proj u = true ∨ IsEnabled proj u = false)
    ∧ (∀ (proj : Option ProjectConfig) (u u2 : Option ConfigTree),
        projectSaysDevCenter proj = true →
        IsEnabled proj u = true ∧ IsEnabled proj u = IsEnabled proj u2)
    ∧ (∀ proj : Option ProjectConfig, projectSaysDevCenter proj = false →
        IsEnabled proj none = false)
    ∧ (∀ (proj : Option ProjectConfig) (cfg : ConfigTree),
        projectSaysDevCenter proj = false →
        getPath cfg platformTypePath = none →
        IsEnabled proj (some cfg) = false)
    ∧ (∀ (proj : Option ProjectConfig) (cfg : ConfigTree) (v : Value),
        projectSaysDevCenter proj = false →
        getPath cfg platformTypePath = some v →
        (∀ s, v ≠ Value.str s) →
        IsEnabled proj (some cfg) = false) := by
  refine ⟨fun proj u => Bool.eq_false_or_eq_true (IsEnabled proj u), ?_, ?_, ?_, ?_⟩
  · intro proj u u2 hp
    simp [IsEnabled, hp]
  · intro proj hp
    simp [IsEnabled, hp]
  · intro proj cfg hp hg
    simp [IsEnabled, hp, hg]
  · intro proj cfg v hp hg hs
    cases v with
    | str s => exact absurd rfl (hs s)
    | bool b => simp [IsEnabled, hp, hg]
    | int i => simp [IsEnabled, hp, hg]
    | tree t => simp [IsEnabled, hp, hg]

/-- Witness for C9: a devcenter-typed project config enables the platform
regardless of a failed user-config load; with no project platform and a
bool-valued `platform.type`, the check is `false`. -/
theorem isEnabled_total_and_false_on_failures_witness :
    (IsEnabled (some { platform := some { ptype := "devcenter", config := Value.tree [] } })
        none = true)
    ∧ IsEnabled none none = false
    ∧ IsEnabled none (some [("platform", Value.tree [("type", Value.bool true)])]) = false :=
  ⟨(isEnabled_total_and_false_on_failures.2.1
      (some { platform := some { ptype := "devcenter", config := Value.tree [] } })
      none (some []) rfl).1,
   isEnabled_total_and_false_on_failures.2.2.1 none rfl,
   isEnabled_total_and_false_on_failures.2.2.2.2 none
     [("platform", Value.tree [("type", Value.bool true)])] (Value.bool true) rfl rfl
     (fun _ h => Value.noConfusion h)⟩

/-- C10: the user-config enablement check is case-insensitive — any string
at `platform.type` equal to `"devcenter"` up to case folding makes
`IsEnabled` return `true`. -/
theorem isEnabled_case_insensitive (proj : Option ProjectConfig) (cfg : ConfigTree)
    (s : String)
    (hget : getPath cfg platformTypePath = some (Value.str s))
    (hfold : equalFold s PlatformKindDevCenter = true) :
    IsEnabled proj (some cfg) = true := by
  by_cases hp : projectSaysDevCenter proj
  · simp [IsEnabled, hp]
  · simp [IsEnabled, hp, hget, hfold]

/-- Witness for C10: `"DevCenter"` and `"DEVCENTER"` at `platform.type`
both enable the platform. -/
theorem isEnabled_case_insensitive_witness :
    IsEnabled none (some [("platform", Value.tree [("type", Value.str "DevCenter")])]) = true
    ∧ IsEnabled none (some [("platform", Value.tree [("type", Value.str "DEVCENTER")])]) = true :=
  ⟨isEnabled_case_insensitive none _ "DevCenter" rfl (by decide),
   isEnabled_case_insensitive none _ "DEVCENTER" rfl (by decide)⟩

/-! ## Supporting lemmas: the parameter resolver -/

theorem consRes_env (id : String) (v : Value) (out : PromptOutcome) (k : Nat) :
    (consRes id v out k).env = out.env := rfl

theorem consRes_prompts (id : String) (v : Value) (out : PromptOutcome) (k : Nat) :
    (consRes id v out k).prompts = out.prompts + k := rfl

theorem consRes_result_ok (id : String) (v : Value) (out : PromptOutcome) (k : Nat)
    (m : List (String × Value)) :
    (consRes id v out k).result = .ok m
      ↔ ∃ m2, out.result = .ok m2 ∧ m = (id, v) :: m2 := by
  cases h : out.result with
  | ok m2 =>
    simp only [consRes, h, Except.map]
    constructor
    · intro he
      exact ⟨m2, rfl, (Except.ok.injEq _ _ |>.mp he).symm⟩
    · rintro ⟨m3, hm3, rfl⟩
      have : m2 = m3 := Except.ok.injEq _ _ |>.mp hm3
      rw [this]
  | error e =>
    simp [consRes, h, Except.map]

theorem consRes_result_error (id : String) (v : Value) (out : PromptOutcome) (k : Nat)
    (e : ParameterCoercionFailure) :
    (consRes id v out k).result = .error e ↔ out.result = .error e := by
  cases h : out.result <;> simp [consRes, h, Except.map]

theorem promptLoop_env_untouched (a : String → String) (c : String → Bool)
    (params : List Parameter) :
    ∀ (env : ConfigTree) (x : String), x ∉ params.map (fun p => p.id) →
    getPath (promptLoop a c params env).env (paramPath x) = getPath env (paramPath x) := by
  induction params with
  | nil => intro env x _; rfl
  | cons p rest ih =>
    intro env x hx
    simp only [List.map_cons, List.mem_cons, not_or] at hx
    obtain ⟨hxp, hxr⟩ := hx
    have hpx : p.id ≠ x := fun h => hxp h.symm
    cases hg : getPath env (paramPath p.id) with
    | some v =>
      simp only [promptLoop, hg]
      rw [consRes_env]
      exact ih env x hxr
    | none =>
      cases hpt : p.type with
      | string =>
        simp only [promptLoop, hg, hpt]
        rw [consRes_env, ih _ x hxr, getPath_setParam_ne env p.id x _ hpx]
      | bool =>
        simp only [promptLoop, hg, hpt]
        rw [consRes_env, ih _ x hxr, getPath_setParam_ne env p.id x _ hpx]
      | int =>
        cases hpi : parseInt (a p.id) with
        | some i =>
          simp only [promptLoop, hg, hpt, hpi]
          rw [consRes_env, ih _ x hxr, getPath_setParam_ne env p.id x _ hpx]
        | none =>
          simp only [promptLoop, hg, hpt, hpi]

theorem promptLoop_result_keys (a : String → String) (c : String → Bool)
    (params : List Parameter) :
    ∀ (env : ConfigTree) (m : List (String × Value)),
    (promptLoop a c params env).result = .ok m →
    m.map Prod.fst = params.map (fun p => p.id) := by
  induction params with
  | nil =>
    intro env m h
    simp only [promptLoop] at h
    have : ([] : List (String × Value)) = m := Except.ok.injEq _ _ |>.mp h
    rw [← this]
    rfl
  | cons p rest ih =>
    intro env m h
    cases hg : getPath env (paramPath p.id) with
    | some v =>
      simp only [promptLoop, hg] at h
      obtain ⟨m2, hm2, rfl⟩ := (consRes_result_ok _ _ _ _ _).mp h
      simp [ih env m2 hm2]
    | none =>
      cases hpt : p.type with
      | string =>
        simp only [promptLoop, hg, hpt] at h
        obtain ⟨m2, hm2, rfl⟩ := (consRes_result_ok _ _ _ _ _).mp h
        simp [ih _ m2 hm2]
      | bool =>
        simp only [promptLoop, hg, hpt] at h
        obtain ⟨m2, hm2, rfl⟩ := (consRes_result_ok _ _ _ _ _).mp h
        simp [ih _ m2 hm2]
      | int =>
        cases hpi : parseInt (a p.id) with
        | some i =>
          simp only [promptLoop, hg, hpt, hpi] at h
          obtain ⟨m2, hm2, rfl⟩ := (consRes_result_ok _ _ _ _ _).mp h
          simp [ih _ m2 hm2]
        | none =>
          simp only [promptLoop, hg, hpt, hpi] at h
          exact absurd h (by simp)

theorem filter_ext_on {α : Type} (p q : α → Bool) :
    ∀ l : List α, (∀ x ∈ l, p x = q x) → l.filter p = l.filter q := by
  intro l
  induction l with
  | nil => intro _; rfl
  | cons x rest ih =>
    intro h
    have hx : p x = q x := h x (List.mem_cons_self x rest)
    have hr := ih (fun y hy => h y (List.mem_cons_of_mem x hy))
    simp only [List.filter_cons, hx, hr]

theorem promptLoop_persists (a : String → String) (c : String → Bool)
    (params : List Parameter) :
    ∀ (env : ConfigTree) (m : List (String × Value)),
    (params.map (fun p => p.id)).Nodup →
    (promptLoop a c params env).result = .ok m →
    ∀ q ∈ params, ∃ v, getPath (promptLoop a c params env).env (paramPath q.id) = some v := by
  induction params with
  | nil => intro env m _ _ q hq; exact absurd hq (List.not_mem_nil q)
  | cons p rest ih =>
    intro env m hnd h q hq
    rw [List.map_cons, List.nodup_cons] at hnd
    obtain ⟨hpni, hndr⟩ := hnd
    rcases List.mem_cons.mp hq with rfl | hqr
    · cases hg : getPath env (paramPath q.id) with
      | some v =>
        simp only [promptLoop, hg]
        rw [consRes_env, promptLoop_env_untouched a c rest env q.id hpni]
        exact ⟨v, hg⟩
      | none =>
        cases hpt : q.type with
        | string =>
          simp only [promptLoop, hg, hpt]
          rw [consRes_env, promptLoop_env_untouched a c rest _ q.id hpni,
            getPath_setParam_self]
          exact ⟨_, rfl⟩
        | bool =>
          simp only [promptLoop, hg, hpt]
          rw [consRes_env, promptLoop_env_untouched a c rest _ q.id hpni,
            getPath_setParam_self]
          exact ⟨_, rfl⟩
        | int =>
          cases hpi : parseInt (a q.id) with
          | some i =>
            simp only [promptLoop, hg, hpt, hpi]
            rw [consRes_env, promptLoop_env_untouched a c rest _ q.id hpni,
              getPath_setParam_self]
            exact ⟨_, rfl⟩
          | none =>
            simp only [promptLoop, hg, hpt, hpi] at h
            exact absurd h (by simp)
    · have hqne : p.id ≠ q.id := by
        intro hc
        exact hpni (hc ▸ List.mem_map.mpr ⟨q, hqr, rfl⟩)
      cases hg : getPath env (paramPath p.id) with
      | some v =>
        simp only [promptLoop, hg] at h ⊢
        rw [consRes_env]
        obtain ⟨m2, hm2, rfl⟩ := (consRes_result_ok _ _ _ _ _).mp h
        exact ih env m2 hndr hm2 q hqr
      | none =>
        cases hpt : p.type with
        | string =>
          simp only [promptLoop, hg, hpt] at h ⊢
          rw [consRes_env]
          obtain ⟨m2, hm2, rfl⟩ := (consRes_result_ok _ _ _ _ _).mp h
          exact ih _ m2 hndr hm2 q hqr
        | bool =>
          simp only [promptLoop, hg, hpt] at h ⊢
          rw [consRes_env]
          obtain ⟨m2, hm2, rfl⟩ := (consRes_result_ok _ _ _ _ _).mp h
          exact ih _ m2 hndr hm2 q hqr
        | int =>
          cases hpi : parseInt (a p.id) with
          | some i =>
            simp only [promptLoop, hg, hpt, hpi] at h ⊢
            rw [consRes_env]
            obtain ⟨m2, hm2, rfl⟩ := (consRes_result_ok _ _ _ _ _).mp h
            exact ih _ m2 hndr hm2 q hqr
          | none =>
            simp only [promptLoop, hg, hpt, hpi] at h
            exact absurd h (by simp)

theorem promptLoop_adopted (a : String → String) (c : String → Bool)
    (params : List Parameter) :
    ∀ (env : ConfigTree) (m : List (String × Value)),
    (params.map (fun p => p.id)).Nodup →
    (promptLoop a c params env).result = .ok m →
    ∀ q ∈ params, ∀ v, getPath env (paramPath q.id) = some v → (q.id, v) ∈ m := by
  induction params with
  | nil => intro env m _ _ q hq; exact absurd hq (List.not_mem_nil q)
  | cons p rest ih =>
    intro env m hnd h q hq v hv
    rw [List.map_cons, List.nodup_cons] at hnd
    obtain ⟨hpni, hndr⟩ := hnd
    rcases List.mem_cons.mp hq with rfl | hqr
    · cases hg : getPath env (paramPath q.id) with
      | some w =>
        have hwv : w = v := by
          have := hg.symm.trans hv
          exact Option.some.injEq _ _ |>.mp this
        subst hwv
        simp only [promptLoop, hg] at h
        obtain ⟨m2, _, rfl⟩ := (consRes_result_ok _ _ _ _ _).mp h
        exact List.mem_cons_self _ _
      | none => exact absurd hv (by rw [hg]; simp)
    · have hqne : p.id ≠ q.id := by
        intro hc
        exact hpni (hc ▸ List.mem_map.mpr ⟨q, hqr, rfl⟩)
      cases hg : getPath env (paramPath p.id) with
      | some w =>
        simp only [promptLoop, hg] at h
        obtain ⟨m2, hm2, rfl⟩ := (consRes_result_ok _ _ _ _ _).mp h
        exact List.mem_cons_of_mem _ (ih env m2 hndr hm2 q hqr v hv)
      | none =>
        have hv2 : ∀ w2 : Value,
            getPath (setParam env p.id w2) (paramPath q.id) = some v := by
          intro w2
          rw [getPath_setParam_ne env p.id q.id w2 hqne]
          exact hv
        cases hpt : p.type with
        | string =>
          simp only [promptLoop, hg, hpt] at h
          obtain ⟨m2, hm2, rfl⟩ := (consRes_result_ok _ _ _ _ _).mp h
          exact List.mem_cons_of_mem _ (ih _ m2 hndr hm2 q hqr v (hv2 _))
        | bool =>
          simp only [promptLoop, hg, hpt] at h
          obtain ⟨m2, hm2, rfl⟩ := (consRes_result_ok _ _ _ _ _).mp h
          exact List.mem_cons_of_mem _ (ih _ m2 hndr hm2 q hqr v (hv2 _))
        | int =>
          cases hpi : parseInt (a p.id) with
          | some i =>
            simp only [promptLoop, hg, hpt, hpi] at h
            obtain ⟨m2, hm2, rfl⟩ := (consRes_result_ok _ _ _ _ _).mp h
            exact List.mem_cons_of_mem _ (ih _ m2 hndr hm2 q hqr v (hv2 _))
          | none =>
            simp only [promptLoop, hg, hpt, hpi] at h
            exact absurd h (by simp)

theorem promptLoop_fresh_typed (a : String → String) (c : String → Bool)
    (params : List Parameter) :
    ∀ (env : ConfigTree) (m : List (String × Value)),
    (params.map (fun p => p.id)).Nodup →
    (promptLoop a c params env).result = .ok m →
    ∀ q ∈ params, getPath env (paramPath q.id) = none →
    ∃ v, (q.id, v) ∈ m ∧ valueHasType v q.type = true := by
  induction params with
  | nil => intro env m _ _ q hq; exact absurd hq (List.not_mem_nil q)
  | cons p rest ih =>
    intro env m hnd h q hq hfresh
    rw [List.map_cons, List.nodup_cons] at hnd
    obtain ⟨hpni, hndr⟩ := hnd
    rcases List.mem_cons.mp hq with rfl | hqr
    · cases hpt : q.type with
      | string =>
        simp only [promptLoop, hfresh, hpt] at h
        obtain ⟨m2, _, rfl⟩ := (consRes_result_ok _ _ _ _ _).mp h
        exact ⟨Value.str (a q.id), List.mem_cons_self _ _, rfl⟩
      | bool =>
        simp only [promptLoop, hfresh, hpt] at h
        obtain ⟨m2, _, rfl⟩ := (consRes_result_ok _ _ _ _ _).mp h
        exact ⟨Value.bool (c q.id), List.mem_cons_self _ _, rfl⟩
      | int =>
        cases hpi : parseInt (a q.id) with
        | some i =>
          simp only [promptLoop, hfresh, hpt, hpi] at h
          obtain ⟨m2, _, rfl⟩ := (consRes_result_ok _ _ _ _ _).mp h
          exact ⟨Value.int i, List.mem_cons_self _ _, rfl⟩
        | none =>
          simp only [promptLoop, hfresh, hpt, hpi] at h
          exact absurd h (by simp)
    · have hqne : p.id ≠ q.id := by
        intro hc
        exact hpni (hc ▸ List.mem_map.mpr ⟨q, hqr, rfl⟩)
      have hfresh2 : ∀ w2 : Value,
          getPath (setParam env p.id w2) (paramPath q.id) = none := by
        intro w2
        rw [getPath_setParam_ne env p.id q.id w2 hqne]
        exact hfresh
      cases hg : getPath env (paramPath p.id) with
      | some w =>
        simp only [promptLoop, hg] at h
        obtain ⟨m2, hm2, rfl⟩ := (consRes_result_ok _ _ _ _ _).mp h
        obtain ⟨v, hvm, hvt⟩ := ih env m2 hndr hm2 q hqr hfresh
        exact ⟨v, List.mem_cons_of_mem _ hvm, hvt⟩
      | none =>
        cases hpt : p.type with
        | string =>
          simp only [promptLoop, hg, hpt] at h
          obtain ⟨m2, hm2, rfl⟩ := (consRes_result_ok _ _ _ _ _).mp h
          obtain ⟨v, hvm, hvt⟩ := ih _ m2 hndr hm2 q hqr (hfresh2 _)
          exact ⟨v, List.mem_cons_of_mem _ hvm, hvt⟩
        | bool =>
          simp only [promptLoop, hg, hpt] at h
          obtain ⟨m2, hm2, rfl⟩ := (consRes_result_ok _ _ _ _ _).mp h
          obtain ⟨v, hvm, hvt⟩ := ih _ m2 hndr hm2 q hqr (hfresh2 _)
          exact ⟨v, List.mem_cons_of_mem _ hvm, hvt⟩
        | int =>
          cases hpi : parseInt (a p.id) with
          | some i =>
            simp only [promptLoop, hg, hpt, hpi] at h
            obtain ⟨m2, hm2, rfl⟩ := (consRes_result_ok _ _ _ _ _).mp h
            obtain ⟨v, hvm, hvt⟩ := ih _ m2 hndr hm2 q hqr (hfresh2 _)
            exact ⟨v, List.mem_cons_of_mem _ hvm, hvt⟩
          | none =>
            simp only [promptLoop, hg, hpt, hpi] at h
            exact absurd h (by simp)

theorem promptLoop_prompt_count (a : String → String) (c : String → Bool)
    (params : List Parameter) :
    ∀ (env : ConfigTree) (m : List (String × Value)),
    (params.map (fun p => p.id)).Nodup →
    (promptLoop a c params env).result = .ok m →
    (promptLoop a c params env).prompts
      = (params.filter (fun p => (getPath env (paramPath p.id)).isNone)).length := by
  induction params with
  | nil => intro env m _ _; rfl
  | cons p rest ih =>
    intro env m hnd h
    rw [List.map_cons, List.nodup_cons] at hnd
    obtain ⟨hpni, hndr⟩ := hnd
    have hagree : ∀ w2 : Value, ∀ q ∈ rest,
        ((getPath (setParam env p.id w2) (paramPath q.id)).isNone : Bool)
          = (getPath env (paramPath q.id)).isNone := by
      intro w2 q hq
      have hqne : p.id ≠ q.id := by
        intro hc
        exact hpni (hc ▸ List.mem_map.mpr ⟨q, hq, rfl⟩)
      rw [getPath_setParam_ne env p.id q.id w2 hqne]
    cases hg : getPath env (paramPath p.id) with
    | some v =>
      simp only [promptLoop, hg] at h ⊢
      rw [consRes_prompts]
      obtain ⟨m2, hm2, rfl⟩ := (consRes_result_ok _ _ _ _ _).mp h
      rw [ih env m2 hndr hm2]
      simp [List.filter_cons, hg]
    | none =>
      cases hpt : p.type with
      | string =>
        simp only [promptLoop, hg, hpt] at h ⊢
        rw [consRes_prompts]
        obtain ⟨m2, hm2, rfl⟩ := (consRes_result_ok _ _ _ _ _).mp h
        rw [ih _ m2 hndr hm2,
          filter_ext_on _ _ rest (hagree (Value.str (a p.id)))]
        simp [List.filter_cons, hg]
      | bool =>
        simp only [promptLoop, hg, hpt] at h ⊢
        rw [consRes_prompts]
        obtain ⟨m2, hm2, rfl⟩ := (consRes_result_ok _ _ _ _ _).mp h
        rw [ih _ m2 hndr hm2,
          filter_ext_on _ _ rest (hagree (Value.bool (c p.id)))]
        simp [List.filter_cons, hg]
      | int =>
        cases hpi : parseInt (a p.id) with
        | some i =>
          simp only [promptLoop, hg, hpt, hpi] at h ⊢
          rw [consRes_prompts]
          obtain ⟨m2, hm2, rfl⟩ := (consRes_result_ok _ _ _ _ _).mp h
          rw [ih _ m2 hndr hm2,
            filter_ext_on _ _ rest (hagree (Value.int i))]
          simp [List.filter_cons, hg]
        | none =>
          simp only [promptLoop, hg, hpt, hpi] at h
          exact absurd h (by simp)

theorem promptLoop_error (a : String → String) (c : String → Bool)
    (params : List Parameter) :
    ∀ (env : ConfigTree) (e : ParameterCoercionFailure),
    (params.map (fun p => p.id)).Nodup →
    (promptLoop a c params env).result = .error e →
    ∃ p, p ∈ params ∧ e.paramId = p.id ∧ p.type = PType.int
      ∧ e.rawValue = a p.id ∧ parseInt (a p.id) = none
      ∧ getPath env (paramPath p.id) = none
      ∧ getPath (promptLoop a c params env).env (paramPath p.id) = none := by
  induction params with
  | nil =>
    intro env e _ h
    exact absurd h (by simp [promptLoop])
  | cons p rest ih =>
    intro env e hnd h
    rw [List.map_cons, List.nodup_cons] at hnd
    obtain ⟨hpni, hndr⟩ := hnd
    cases hg : getPath env (paramPath p.id) with
    | some v =>
      simp only [promptLoop, hg] at h ⊢
      rw [consRes_env]
      rw [consRes_result_error] at h
      obtain ⟨q, hq, h1, h2, h3, h4, h5, h6⟩ := ih env e hndr h
      exact ⟨q, List.mem_cons_of_mem _ hq, h1, h2, h3, h4, h5, h6⟩
    | none =>
      have lift : ∀ w2 : Value,
          (promptLoop a c rest (setParam env p.id w2)).result = .error e →
          ∃ q, q ∈ p :: rest ∧ e.paramId = q.id ∧ q.type = PType.int
            ∧ e.rawValue = a q.id ∧ parseInt (a q.id) = none
            ∧ getPath env (paramPath q.id) = none
            ∧ getPath (promptLoop a c rest (setParam env p.id w2)).env
                (paramPath q.id) = none := by
        intro w2 hrest
        obtain ⟨q, hq, h1, h2, h3, h4, h5, h6⟩ := ih (setParam env p.id w2) e hndr hrest
        have hqne : p.id ≠ q.id := by
          intro hc
          exact hpni (hc ▸ List.mem_map.mpr ⟨q, hq, rfl⟩)
        rw [getPath_setParam_ne env p.id q.id w2 hqne] at h5
        exact ⟨q, List.mem_cons_of_mem _ hq, h1, h2, h3, h4, h5, h6⟩
      cases hpt : p.type with
      | string =>
        simp only [promptLoop, hg, hpt] at h ⊢
        rw [consRes_env]
        rw [consRes_result_error] at h
        exact lift _ h
      | bool =>
        simp only [promptLoop, hg, hpt] at h ⊢
        rw [consRes_env]
        rw [consRes_result_error] at h
        exact lift _ h
      | int =>
        cases hpi : parseInt (a p.id) with
        | some i =>
          simp only [promptLoop, hg, hpt, hpi] at h ⊢
          rw [consRes_env]
          rw [consRes_result_error] at h
          exact lift _ h
        | none =>
          simp only [promptLoop, hg, hpt, hpi] at h ⊢
          have he : e = { paramId := p.id, rawValue := a p.id } :=
            (Except.error.injEq _ _ |>.mp h).symm
          subst he
          exact ⟨p, List.mem_cons_self _ _, rfl, hpt, rfl, hpi, hg, hg⟩

/-! ## C2, C3, C6: the parameter resolver -/

/-- C2: whenever `PromptParameters` returns a mapping for an environment
definition whose descriptors (with distinct ids) are all unpersisted, the
mapping has exactly one entry per descriptor (its keys are the descriptor
ids in declared order), every entry's value is coerced to the descriptor's
declared type, and the environment's persisted store afterwards holds a
value at `provision.parameters.<id>` for every descriptor. -/
theorem promptParameters_complete (a : String → String) (c : String → Bool)
    (env : ConfigTree) (params : List Parameter) (m : List (String × Value))
    (hnd : (params.map (fun p => p.id)).Nodup)
    (hfresh : ∀ p ∈ params, getPath env (paramPath p.id) = none)
    (hok : (PromptParameters a c env params).result = .ok m) :
    m.map Prod.fst = params.map (fun p => p.id)
    ∧ (∀ p ∈ params, ∃ v, (p.id, v) ∈ m ∧ valueHasType v p.type = true)
    ∧ (∀ p ∈ params, ∃ v,
        getPath (PromptParameters a c env params).env (paramPath p.id) = some v) :=
  ⟨promptLoop_result_keys a c params env m hok,
   fun p hp => promptLoop_fresh_typed a c params env m hnd hok p hp (hfresh p hp),
   fun p hp => promptLoop_persists a c params env m hnd hok p hp⟩

/-- Witness for C2: the four-parameter run of the `MultipleParameters`
test scenario returns four correctly typed entries — the raw input `"123"`
of the int parameter becomes the integer `123`, not the string — and every
parameter ends up persisted. -/
theorem promptParameters_complete_witness :
    ((PromptParameters testAnswers testConfirms [] testParams4).result
      = .ok [("param1", Value.str "value1"), ("param2", Value.str "value2"),
             ("param3", Value.bool true), ("param4", Value.int 123)])
    ∧ (∃ v, ("param4", v) ∈
        [("param1", Value.str "value1"), ("param2", Value.str "value2"),
         ("param3", Value.bool true), ("param4", Value.int 123)]
        ∧ valueHasType v PType.int = true)
    ∧ (∃ v, getPath (PromptParameters testAnswers testConfirms [] testParams4).env
        (paramPath "param4") = some v) := by
  have h := promptParameters_complete testAnswers testConfirms [] testParams4
    [("param1", Value.str "value1"), ("param2", Value.str "value2"),
     ("param3", Value.bool true), ("param4", Value.int 123)]
    (by decide) (fun p _ => rfl) rfl
  refine ⟨rfl, ?_, ?_⟩
  · exact h.2.1 { id := "param4", pname := "Param 4", type := PType.int }
      (by simp [testParams4])
  · exact h.2.2 { id := "param4", pname := "Param 4", type := PType.int }
      (by simp [testParams4])

/-- C3: whenever `PromptParameters` returns a mapping, every parameter
whose id already has a persisted value at `provision.parameters.<id>` is
adopted into the mapping unchanged — with no type condition on the
persisted value, i.e. without re-validation — and the number of prompts
issued equals the number of descriptors without a persisted value (in
particular zero when all are persisted). -/
theorem promptParameters_adopts_persisted (a : String → String) (c : String → Bool)
    (env : ConfigTree) (params : List Parameter) (m : List (String × Value))
    (hnd : (params.map (fun p => p.id)).Nodup)
    (hok : (PromptParameters a c env params).result = .ok m) :
    (∀ p ∈ params, ∀ v, getPath env (paramPath p.id) = some v → (p.id, v) ∈ m)
    ∧ (PromptParameters a c env params).prompts
        = (params.filter (fun p => (getPath env (paramPath p.id)).isNone)).length :=
  ⟨fun p hp v hv => promptLoop_adopted a c params env m hnd hok p hp v hv,
   promptLoop_prompt_count a c params env m hnd hok⟩

/-- Witness for C3: with `param1`/`param2` persisted out of four string
parameters, the run prompts exactly twice, keeps the persisted values
unchanged in the returned mapping, and a fully-persisted two-parameter run
prompts zero times. -/
theorem promptParameters_adopts_persisted_witness :
    ((PromptParameters testAnswersStr testConfirms testEnvPersisted testParamsStr4).result
      = .ok [("param1", Value.str "value1"), ("param2", Value.str "value2"),
             ("param3", Value.str "value3"), ("param4", Value.str "value4")])
    ∧ ("param1", Value.str "value1") ∈
        [("param1", Value.str "value1"), ("param2", Value.str "value2"),
         ("param3", Value.str "value3"), ("param4", Value.str "value4")]
    ∧ (PromptParameters testAnswersStr testConfirms testEnvPersisted testParamsStr4).prompts = 2
    ∧ (PromptParameters testAnswersStr testConfirms testEnvPersisted testParamsStr2).prompts = 0 := by
  have h4 := promptParameters_adopts_persisted testAnswersStr testConfirms
    testEnvPersisted testParamsStr4
    [("param1", Value.str "value1"), ("param2", Value.str "value2"),
     ("param3", Value.str "value3"), ("param4", Value.str "value4")]
    (by decide) rfl
  have h2 := promptParameters_adopts_persisted testAnswersStr testConfirms
    testEnvPersisted testParamsStr2
    [("param1", Value.str "value1"), ("param2", Value.str "value2")]
    (by decide) rfl
  refine ⟨rfl, ?_, ?_, ?_⟩
  · exact h4.1 { id := "param1", pname := "Param 1", type := PType.string }
      (by simp [testParamsStr4]) (Value.str "value1") rfl
  · rw [h4.2]; rfl
  · rw [h2.2]; rfl

/-- C6: whenever `PromptParameters` aborts with an error, that error is a
`ParameterCoercionFailure` of an int-typed, unpersisted parameter whose
raw input does not parse as a base-10 integer; the failure names the
parameter id and the offending raw value (both as fields and in its
message), and nothing is persisted at `provision.parameters.<id>` for that
parameter — its persisted state is unchanged (absent) after the error. -/
theorem promptParameters_coercion_failure (a : String → String) (c : String → Bool)
    (env : ConfigTree) (params : List Parameter) (e : ParameterCoercionFailure)
    (hnd : (params.map (fun p => p.id)).Nodup)
    (herr : (PromptParameters a c env params).result = .error e) :
    ∃ p, p ∈ params ∧ e.paramId = p.id ∧ p.type = PType.int
      ∧ e.rawValue = a p.id ∧ parseInt e.rawValue = none
      ∧ e.message = "failed to convert value " ++ e.rawValue
          ++ " of parameter " ++ e.paramId ++ " to int"
      ∧ getPath env (paramPath p.id) = none
      ∧ getPath (PromptParameters a c env params).env (paramPath p.id) = none := by
  obtain ⟨p, hp, h1, h2, h3, h4, h5, h6⟩ := promptLoop_error a c params env e hnd herr
  exact ⟨p, hp, h1, h2, h3, by rw [h3]; exact h4, rfl, h5, h6⟩

/-- Witness for C6: the int parameter given the raw input `"abc"` fails
with a coercion error naming `param4` and `"abc"`, and leaves the (empty)
environment without a persisted value for it. -/
theorem promptParameters_coercion_failure_witness :
    ((PromptParameters testAnswersBad testConfirms [] testParamsInt).result
      = Except.error { paramId := "param4", rawValue := "abc" })
    ∧ ((PromptParameters testAnswersBad testConfirms [] testParamsInt).env
      = ([] : ConfigTree))
    ∧ (∃ p, p ∈ testParamsInt
        ∧ ({ paramId := "param4", rawValue := "abc" } : ParameterCoercionFailure).paramId = p.id
        ∧ p.type = PType.int
        ∧ getPath (PromptParameters testAnswersBad testConfirms [] testParamsInt).env
            (paramPath p.id) = none) := by
  refine ⟨rfl, rfl, ?_⟩
  obtain ⟨p, hp, h1, h2, _, _, _, _, h6⟩ :=
    promptParameters_coercion_failure testAnswersBad testConfirms [] testParamsInt
      { paramId := "param4", rawValue := "abc" } (by decide) rfl
  exact ⟨p, hp, h1, h2, h6⟩

/-! ## C5: layer error handling in the config factory -/

/-- C5 counterexample: a present but malformed project-descriptor layer
does **not** abort config resolution.  With every other layer absent and a
project platform config node that fails to parse, `resolveConfig` still
returns a merged config (the parse error is swallowed at `platform.go`
lines 146-149), refuting the claim that a parse failure of any present
layer aborts resolution. -/
theorem resolveConfig_swallows_project_parse_error :
    (ParseConfig (Value.int 0) = Except.error ())
    ∧ (resolveConfig (fun _ => "") none none none
        (some { platform := some { ptype := "devcenter", config := Value.int 0 } })
      = Except.ok {}) :=
  ⟨rfl, rfl⟩

theorem ite_empty_self (s : String) : (if s = "" then "" else s) = s := by
  by_cases h : s = "" <;> simp [h]

theorem mergeConfigs_env_only (x : Config) :
    MergeConfigs [some x, none, none, some {}] = x := by
  obtain ⟨n, p, cat, et, ed, u⟩ := x
  simp [MergeConfigs, Config.fillFrom, ite_empty_self]

/-- C5 amended: a present but unparsable environment-store or
user-descriptor layer aborts resolution with the parse error, and absent
layers are treated as empty fragments (resolution succeeds); the
project-descriptor layer however swallows a parse failure, treating the
malformed layer as absent instead of aborting. -/
theorem resolveConfig_layer_error_handling :
    (∀ (getenv : String → String) (ctx : AzdContext)
        (store : String → Except Unit Environment) (uload : Option ConfigTree)
        (proj : Option ProjectConfig) (envName : String) (env : Environment)
        (node : Value) (e : Unit),
      ctx.getDefaultEnvironmentName = .ok envName →
      store envName = .ok env →
      getPath env.config ConfigPathParts = some node →
      ParseConfig node = .error e →
      resolveConfig getenv (some ctx) (some store) uload proj = .error e)
    ∧
    (∀ (getenv : String → String) (ucfg : ConfigTree) (proj : Option ProjectConfig)
        (node : Value) (e : Unit),
      getPath ucfg ConfigPathParts = some node →
      ParseConfig node = .error e →
      resolveConfig getenv none none (some ucfg) proj = .error e)
    ∧
    (∀ (getenv : String → String) (azdCtx : Option AzdContext)
        (store : Option (String → Except Unit Environment)) (uload : Option ConfigTree)
        (pl : PlatformSection) (e : Unit),
      ParseConfig pl.config = .error e →
      resolveConfig getenv azdCtx store uload (some { platform := some pl })
        = resolveConfig getenv azdCtx store uload none)
    ∧
    (∀ getenv : String → String,
      resolveConfig getenv none none none none = .ok (envVarConfig getenv)) := by
  refine ⟨?_, ?_, ?_, ?_⟩
  · intro getenv ctx store uload proj envName env node e hname hstore hget hparse
    have hb : environmentLayer (some ctx) (some store) = Except.error e := by
      simp [environmentLayer, hname, hstore, hget, hparse, Except.map]
    simp only [resolveConfig]
    rw [hb]
    rfl
  · intro getenv ucfg proj node e hget hparse
    have hb : userLayer (some ucfg) = Except.error e := by
      simp [userLayer, hget, hparse, Except.map]
    show (do
      let userCfg ← userLayer (some ucfg)
      Except.ok (MergeConfigs
        [some (envVarConfig getenv), none, projectLayer proj, userCfg]))
      = Except.error e
    rw [hb]
    rfl
  · intro getenv azdCtx store uload pl e hparse
    simp [resolveConfig, projectLayer, hparse]
  · intro getenv
    have hb : resolveConfig getenv none none none none
        = Except.ok (MergeConfigs [some (envVarConfig getenv), none, none, some {}]) := rfl
    rw [hb, mergeConfigs_env_only]

/-- Witness for C5 (amended): a malformed environment-store node aborts
resolution with the parse error, and with every layer absent resolution
succeeds with just the process-environment fragment. -/
theorem resolveConfig_layer_error_handling_witness :
    (resolveConfig (fun _ => "") (some { getDefaultEnvironmentName := .ok "dev" })
        (some (fun _ =>
          .ok { config := [("platform", Value.tree [("config", Value.int 0)])] }))
        none none
      = Except.error ())
    ∧ (resolveConfig (fun _ => "catalog-a") none none none none
      = Except.ok (envVarConfig (fun _ => "catalog-a"))) :=
  ⟨resolveConfig_layer_error_handling.1 (fun _ => "")
      { getDefaultEnvironmentName := .ok "dev" }
      (fun _ => .ok { config := [("platform", Value.tree [("config", Value.int 0)])] })
      none none "dev"
      { config := [("platform", Value.tree [("config", Value.int 0)])] }
      (Value.int 0) () rfl rfl rfl rfl,
   resolveConfig_layer_error_handling.2.2.2 (fun _ => "catalog-a")⟩

/-! ## C8: the capability registry -/

/-- C8: when resolving a capability key succeeds, resolving it again
returns the identity-same instance with an unchanged registry state, and
the first resolution invoked the factory at most once — so over both
resolutions at most one factory invocation per key occurs. -/
theorem resolve_memoized (regs : Registrations) (st : RegState) (key : CapKey)
    (i1 i2 : Nat) (st1 st2 : RegState)
    (h1 : resolve regs st key = .ok (i1, st1))
    (h2 : resolve regs st1 key = .ok (i2, st2)) :
    i1 = i2 ∧ st2 = st1 ∧ invocationCount st1 key ≤ invocationCount st key + 1 := by
  cases hc : findByKey st.cache key with
  | some inst =>
    simp only [resolve, hc, Except.ok.injEq, Prod.mk.injEq] at h1
    obtain ⟨hi, hst⟩ := h1
    rw [← hst] at h2
    simp only [resolve, hc, Except.ok.injEq, Prod.mk.injEq] at h2
    obtain ⟨hi2, hst2⟩ := h2
    refine ⟨hi.symm.trans hi2, hst2.symm.trans hst, ?_⟩
    rw [← hst]
    exact Nat.le_succ _
  | none =>
    cases hr : findByKey regs key with
    | none => simp [resolve, hc, hr] at h1
    | some factory =>
      cases factory with
      | none => simp [resolve, hc, hr] at h1
      | some inst =>
        simp only [resolve, hc, hr, Except.ok.injEq, Prod.mk.injEq] at h1
        obtain ⟨hi, hst⟩ := h1
        have hres : resolve regs st1 key = .ok (inst, st1) := by
          rw [← hst]
          simp [resolve, findByKey]
        rw [hres] at h2
        have h2p : inst = i2 ∧ st1 = st2 :=
          Prod.mk.injEq _ _ _ _ |>.mp (Except.ok.injEq _ _ |>.mp h2)
        obtain ⟨hi2, hst2⟩ := h2p
        refine ⟨hi.symm.trans hi2, hst2.symm, ?_⟩
        rw [← hst]
        simp [invocationCount, List.filter_cons]

/-- Witness for C8: resolving the provision-provider registration of
`ConfigureContainer` twice from a fresh registry returns the same instance
and leaves exactly one logged factory invocation. -/
theorem resolve_memoized_witness :
    (resolve devcenterRegistrations { cache := [], invocations := [] }
        ("provisioning-provider", "devcenter")
      = .ok (1, { cache := [(("provisioning-provider", "devcenter"), 1)],
                  invocations := [("provisioning-provider", "devcenter")] }))
    ∧ ((1 : Nat) = 1
        ∧ ({ cache := [(("provisioning-provider", "devcenter"), 1)],
             invocations := [("provisioning-provider", "devcenter")] } : RegState)
            = { cache := [(("provisioning-provider", "devcenter"), 1)],
                invocations := [("provisioning-provider", "devcenter")] }
        ∧ invocationCount
            { cache := [(("provisioning-provider", "devcenter"), 1)],
              invocations := [("provisioning-provider", "devcenter")] }
            ("provisioning-provider", "devcenter")
          ≤ invocationCount { cache := [], invocations := [] }
              ("provisioning-provider", "devcenter") + 1) :=
  ⟨rfl,
   resolve_memoized devcenterRegistrations { cache := [], invocations := [] }
     ("provisioning-provider", "devcenter") 1 1
     { cache := [(("provisioning-provider", "devcenter"), 1)],
       invocations := [("provisioning-provider", "devcenter")] }
     { cache := [(("provisioning-provider", "devcenter"), 1)],
       invocations := [("provisioning-provider", "devcenter")] }
     rfl rfl⟩

end DevCenter
